import Mathlib

/-!
Shallow embedding of the grid-sketch-architect layer/canvas engine.

Sources embedded:
* `src/components/Canvas.tsx` — grid snapping (`snapToGridPoint`), the
  undo/redo history (`saveHistoryState`, `performUndo`, `performRedo`),
  the `object:added` tracking handler, and the per-tool pointer handlers
  (`setupLineTool`, `setupRectangleTool`, `setupCircleTool`,
  `setupArrowTool`, `setupTextTool`).
* `src/hooks/useLayerManager.ts` — layer registry state and its
  operations (`generateUniqueLayerName`, `addLayer`, `removeLayer`,
  `toggleLayerVisibility`).
* `src/components/GridSketch.tsx` — the inline layer handlers
  (`addLayer`, `removeLayer`).

Conventions: fabric.js objects are identified by a natural number
(object identity); numeric coordinates are rationals; `Date.now()` is an
explicit `now : Nat` argument; toast notifications that carry program
meaning (guard rejections) are surfaced as `Option String` / `Bool`
results.  The fabric canvas contents are tracked as the list of real
shape ids (`canvasObjects`); the grid group and the temporary start
marker are always filtered out by the tracking handlers in the source,
so they are not represented.
-/

namespace Sketch

/-- A 2D point, the `Point` interface of `Canvas.tsx`. -/
structure Point where
  x : ℚ
  y : ℚ
deriving DecidableEq, Repr

/-- A layer of the sketch, the `Layer` interface shared by
`GridSketch.tsx` and `useLayerManager.ts`.  `objects` holds the ids of
the fabric objects belonging to this layer. -/
structure Layer where
  id : String
  name : String
  visible : Bool
  locked : Bool
  objects : List Nat
deriving DecidableEq, Repr

/-- The `type` field of a history entry in `Canvas.tsx`
(`'add' | 'remove' | 'modify'`). -/
inductive ActionType where
  | add
  | remove
  | modify
deriving DecidableEq, Repr

/-- One history entry, the `HistoryAction` type of `Canvas.tsx`.  It
stores references to the affected objects (by id), the action kind and
the id of the layer the action happened on.  Note: there is no snapshot
field of any pre- or post-modification geometry. -/
structure HistoryAction where
  objects : List Nat
  type : ActionType
  layerId : String
deriving DecidableEq, Repr

/-- JS `list[i]` for a possibly negative index: a negative or
out-of-range index yields `undefined` (here `none`). -/
def intGet? {α : Type} (l : List α) (i : Int) : Option α :=
  if i < 0 then none else l[i.toNat]?

/-- JS `list.slice(0, e)` (used by `saveHistoryState` to truncate the
history): a negative end counts from the end of the array. -/
def jsSliceTo {α : Type} (l : List α) (e : Int) : List α :=
  if e < 0 then l.take (((l.length : Int) + e).toNat) else l.take e.toNat

namespace Canvas

/-- The source's `snapToGridPoint` from `Canvas.tsx`: when snapping is enabled, each
coordinate is rounded independently to the nearest multiple of the cell
size (`Math.round(v / cellSize) * cellSize`); otherwise the point is
returned unchanged. -/
def snapToGridPoint (snapToGrid : Bool) (gridSize : ℚ) (p : Point) : Point :=
  if !snapToGrid then p
  else
    { x := (round (p.x / gridSize) : ℤ) * gridSize
      y := (round (p.y / gridSize) : ℤ) * gridSize }

/-- Geometry of a drawable fabric object, as the tools of `Canvas.tsx`
construct and mutate it. -/
inductive ShapeGeom where
  | line (x1 y1 x2 y2 : ℚ)
  | rect (left top width height : ℚ)
  | circle (left top radius : ℚ)
  | text (left top : ℚ)
deriving DecidableEq, Repr

/-- The props of the `Canvas` component that the embedded handlers
read: the layer list, the active layer id and the grid settings. -/
structure CanvasEnv where
  layers : List Layer
  activeLayerId : String
  snapToGrid : Bool
  gridSize : ℚ
deriving DecidableEq, Repr

/-- The mutable refs of the `Canvas` component: the fabric canvas
contents, the `layerObjectsMap` (association list in `Map` insertion
order), the geometry of every created object, the history log with its
cursor, a counter modelling the identity of freshly constructed fabric
objects, and the in-progress gesture refs (`startPointRef` and the
per-tool closure variables holding the provisional shape). -/
structure CanvasState where
  canvasObjects : List Nat
  layerObjects : List (String × List Nat)
  geoms : List (Nat × ShapeGeom)
  history : List HistoryAction
  historyIndex : Int
  nextShapeId : Nat
  startPoint : Option Point
  lineInProgress : Option Nat
  rectInProgress : Option Nat
  circleInProgress : Option Nat
  arrowInProgress : Option Nat
deriving DecidableEq, Repr

/-- The source's `layerObjectsMap.current.get(layerId) || []`. -/
def layerList (m : List (String × List Nat)) (layerId : String) : List Nat :=
  ((m.find? (fun e => e.1 == layerId)).map (fun e => e.2)).getD []

/-- The source's `layerObjectsMap.current.set(layerId, objs)`: replace the entry in
place if the key exists, otherwise append a new entry (JS `Map`
insertion order). -/
def setLayer (m : List (String × List Nat)) (layerId : String) (objs : List Nat) :
    List (String × List Nat) :=
  match m with
  | [] => [(layerId, objs)]
  | (k, v) :: rest =>
      if k = layerId then (layerId, objs) :: rest
      else (k, v) :: setLayer rest layerId objs

/-- The loop `for ([layerId, layerObjects] of map) { i = indexOf(obj);
if (i >= 0) { splice(i, 1); break } }` used when undoing an add or
redoing a remove: remove the first occurrence of the object from the
first layer list that contains it. -/
def removeFromLayersFirst (o : Nat) (m : List (String × List Nat)) :
    List (String × List Nat) :=
  match m with
  | [] => []
  | (k, v) :: rest =>
      if o ∈ v then (k, v.erase o) :: rest
      else (k, v) :: removeFromLayersFirst o rest

/-- The loop `for ([layerId, layerObjects] of map) { i = indexOf(obj);
if (i >= 0) { push(obj); break } }` used when undoing a remove or
redoing an add: the push fires exactly when the object is already
present in a layer list (the first such list). -/
def pushIfPresent (o : Nat) (m : List (String × List Nat)) :
    List (String × List Nat) :=
  match m with
  | [] => []
  | (k, v) :: rest =>
      if o ∈ v then (k, v ++ [o]) :: rest
      else (k, v) :: pushIfPresent o rest

/-- All objects listed in the layer map, in layer order. -/
def joinLists (m : List (String × List Nat)) : List Nat :=
  (m.map (fun e => e.2)).flatten

/-- The source's `saveHistoryState(objects, actionType, layerId)` from `Canvas.tsx`:
if the cursor is not at the last entry, first truncate the log with
`slice(0, historyIndex + 1)`; then push the new entry and move the
cursor to the new last index. -/
def saveHistoryState (objects : List Nat) (ty : ActionType) (layerId : String)
    (st : CanvasState) : CanvasState :=
  let h :=
    if st.historyIndex < (st.history.length : Int) - 1 then
      jsSliceTo st.history (st.historyIndex + 1)
    else st.history
  let h2 := h ++ [{ objects := objects, type := ty, layerId := layerId }]
  { st with history := h2, historyIndex := (h2.length : Int) - 1 }

/-- The source's `performUndo` from `Canvas.tsx`.  With the cursor below zero it is a
no-op ("Rien à annuler").  Otherwise the entry at the cursor is
replayed backwards: for `add`, the objects are removed from the canvas
and spliced out of the first layer list containing them; for `remove`,
the objects are added back to the canvas and pushed into a layer list
only when already present there (the source guard); for `modify`,
nothing but a toast happens.  Finally the cursor is decremented.  An
out-of-range cursor (impossible in states the component produces) is
modelled as a no-op. -/
def performUndo (st : CanvasState) : CanvasState :=
  if st.historyIndex < 0 then st
  else
    match intGet? st.history st.historyIndex with
    | none => st
    | some action =>
        let st1 : CanvasState :=
          match action.type with
          | ActionType.add =>
              action.objects.foldl
                (fun s o =>
                  { s with
                    canvasObjects := s.canvasObjects.erase o
                    layerObjects := removeFromLayersFirst o s.layerObjects }) st
          | ActionType.remove =>
              action.objects.foldl
                (fun s o =>
                  { s with
                    canvasObjects := s.canvasObjects ++ [o]
                    layerObjects := pushIfPresent o s.layerObjects }) st
          | ActionType.modify => st
        { st1 with historyIndex := st.historyIndex - 1 }

/-- The source's `performRedo` from `Canvas.tsx`.  With the cursor already at the
last entry it is a no-op ("Rien à rétablir").  Otherwise the cursor is
incremented and the entry at the new cursor replayed forwards: for
`add`, objects are added to the canvas and pushed into a layer list
only when already present there (the source guard); for `remove`,
objects found on the canvas are removed from it and spliced out of the
first layer list containing them; for `modify`, nothing but a toast
happens. -/
def performRedo (st : CanvasState) : CanvasState :=
  if st.historyIndex ≥ (st.history.length : Int) - 1 then st
  else
    let newIndex := st.historyIndex + 1
    match intGet? st.history newIndex with
    | none => st
    | some action =>
        let st1 : CanvasState :=
          match action.type with
          | ActionType.add =>
              action.objects.foldl
                (fun s o =>
                  { s with
                    canvasObjects := s.canvasObjects ++ [o]
                    layerObjects := pushIfPresent o s.layerObjects }) st
          | ActionType.remove =>
              action.objects.foldl
                (fun s o =>
                  if o ∈ s.canvasObjects then
                    { s with
                      canvasObjects := s.canvasObjects.erase o
                      layerObjects := removeFromLayersFirst o s.layerObjects }
                  else s) st
          | ActionType.modify => st
        { st1 with historyIndex := newIndex }

/-- One call of `performUndo` or `performRedo`. -/
inductive HistOp where
  | undo
  | redo
deriving DecidableEq, Repr

/-- Apply a sequence of undo/redo calls. -/
def applyHistOps (ops : List HistOp) (st : CanvasState) : CanvasState :=
  ops.foldl
    (fun s op =>
      match op with
      | HistOp.undo => performUndo s
      | HistOp.redo => performRedo s) st

/-- Consistency of a canvas state with respect to the recording paths
of `Canvas.tsx`: every object is listed at most once over all layer
lists; the objects of every `remove` entry are absent from all layer
lists (they are spliced out in the same event that records the entry
and the replay code never re-inserts them); and the objects of every
`add` entry lying beyond the cursor are absent from all layer lists
(they are spliced out by the undo that moved the cursor across the
entry). -/
def CanvasInv (st : CanvasState) : Prop :=
  (joinLists st.layerObjects).Nodup ∧
  (∀ e ∈ st.history, e.type = ActionType.remove →
    ∀ o ∈ e.objects, o ∉ joinLists st.layerObjects) ∧
  (∀ e ∈ st.history.drop ((st.historyIndex + 1).toNat),
    e.type = ActionType.add →
    ∀ o ∈ e.objects, o ∉ joinLists st.layerObjects)

instance (st : CanvasState) : Decidable (CanvasInv st) := by
  unfold CanvasInv
  infer_instance

/-- The `canvas.on('object:added')` handler of `Canvas.tsx`, as it runs
for a real shape freshly added by a tool (the handler's early returns
for history replays, the grid group and the temporary marker never
apply there): the object is appended to the active layer's list unless
already present, and in that case one `add` history entry is recorded
via `saveHistoryState`. -/
def objectAdded (env : CanvasEnv) (n : Nat) (st : CanvasState) : CanvasState :=
  let objs := layerList st.layerObjects env.activeLayerId
  if n ∈ objs then st
  else
    saveHistoryState [n] ActionType.add env.activeLayerId
      { st with layerObjects := setLayer st.layerObjects env.activeLayerId (objs ++ [n]) }

/-- Update the recorded geometry of object `n`. -/
def updateGeom (g : List (Nat × ShapeGeom)) (n : Nat) (f : ShapeGeom → ShapeGeom) :
    List (Nat × ShapeGeom) :=
  g.map (fun e => if e.1 = n then (e.1, f e.2) else e)

/-- Look up the recorded geometry of object `n`. -/
def geomOf (st : CanvasState) (n : Nat) : Option ShapeGeom :=
  ((st.geoms.find? (fun e => e.1 == n)).map (fun e => e.2))

/-- The common `mouse:down` guard of the line, circle, rectangle, text
and arrow tools: the active layer must exist ("Calque actif non
trouvé") and must not be locked ("Le calque est verrouillé"); on guard
failure the handler returns without touching any state. -/
def activeLayerGuard (env : CanvasEnv) : Option String :=
  match env.layers.find? (fun l => l.id == env.activeLayerId) with
  | none => some ("Calque actif non trouvé")
  | some l => if l.locked then some ("Le calque est verrouillé") else none

/-- The source's `mouse:down` of `setupLineTool`: after the guard, the pointer is
snapped, the start point stored, the temporary marker shown, and a
zero-length provisional line added to the canvas — which fires the
`object:added` handler, appending the line to the active layer's list
and recording an `add` history entry.  Returns the new state and the
error toast, if any. -/
def lineMouseDown (env : CanvasEnv) (p : Point) (st : CanvasState) :
    CanvasState × Option String :=
  match activeLayerGuard env with
  | some msg => (st, some msg)
  | none =>
      let sp := snapToGridPoint env.snapToGrid env.gridSize p
      let n := st.nextShapeId
      let st1 :=
        { st with
          startPoint := some sp
          canvasObjects := st.canvasObjects ++ [n]
          geoms := st.geoms ++ [(n, ShapeGeom.line sp.x sp.y sp.x sp.y)]
          nextShapeId := n + 1
          lineInProgress := some n }
      (objectAdded env n st1, none)

/-- The source's `mouse:move` of `setupLineTool`: update the provisional line's end
point to the snapped pointer. -/
def lineMouseMove (env : CanvasEnv) (p : Point) (st : CanvasState) : CanvasState :=
  match st.lineInProgress, st.startPoint with
  | some n, some _ =>
      let sp := snapToGridPoint env.snapToGrid env.gridSize p
      { st with
        geoms := updateGeom st.geoms n
          (fun g =>
            match g with
            | ShapeGeom.line x1 y1 _ _ => ShapeGeom.line x1 y1 sp.x sp.y
            | g => g) }
  | _, _ => st

/-- The source's `mouse:up` of `setupLineTool`: the temporary marker is removed; a
zero-length line (`x1 === x2 && y1 === y2`) is removed from the canvas
("Ligne annulée - longueur nulle"); otherwise the line is made
selectable and appended to the active layer's list unless already
present.  The gesture refs are cleared. -/
def lineMouseUp (env : CanvasEnv) (st : CanvasState) : CanvasState :=
  match st.lineInProgress, st.startPoint with
  | some n, some _ =>
      let degenerate :=
        match geomOf st n with
        | some (ShapeGeom.line x1 y1 x2 y2) => x1 == x2 && y1 == y2
        | _ => false
      if degenerate then
        { st with
          canvasObjects := st.canvasObjects.erase n
          startPoint := none
          lineInProgress := none }
      else
        let objs := layerList st.layerObjects env.activeLayerId
        let st1 :=
          if n ∈ objs then st
          else { st with layerObjects := setLayer st.layerObjects env.activeLayerId (objs ++ [n]) }
        { st1 with startPoint := none, lineInProgress := none }
  | _, _ => st

/-- The source's `mouse:down` of `setupRectangleTool`: guard, snap, store start
point, show marker, add a zero-size provisional rectangle — firing
`object:added` as for the line tool. -/
def rectMouseDown (env : CanvasEnv) (p : Point) (st : CanvasState) :
    CanvasState × Option String :=
  match activeLayerGuard env with
  | some msg => (st, some msg)
  | none =>
      let sp := snapToGridPoint env.snapToGrid env.gridSize p
      let n := st.nextShapeId
      let st1 :=
        { st with
          startPoint := some sp
          canvasObjects := st.canvasObjects ++ [n]
          geoms := st.geoms ++ [(n, ShapeGeom.rect sp.x sp.y 0 0)]
          nextShapeId := n + 1
          rectInProgress := some n }
      (objectAdded env n st1, none)

/-- The source's `mouse:move` of `setupRectangleTool`: the rectangle spans the start
point and the snapped pointer, with non-negative width/height obtained
by flipping the origin (`Math.abs` / `Math.min`). -/
def rectMouseMove (env : CanvasEnv) (p : Point) (st : CanvasState) : CanvasState :=
  match st.rectInProgress, st.startPoint with
  | some n, some s0 =>
      let sp := snapToGridPoint env.snapToGrid env.gridSize p
      { st with
        geoms := updateGeom st.geoms n
          (fun _ =>
            ShapeGeom.rect (min s0.x sp.x) (min s0.y sp.y)
              |sp.x - s0.x| |sp.y - s0.y|) }
  | _, _ => st

/-- The source's `mouse:up` of `setupRectangleTool`: a rectangle with
`width === 0 && height === 0` is removed from the canvas ("Rectangle
annulé - taille nulle"); otherwise it is made selectable and appended
to the active layer's list unless already present. -/
def rectMouseUp (env : CanvasEnv) (st : CanvasState) : CanvasState :=
  match st.rectInProgress, st.startPoint with
  | some n, some _ =>
      let degenerate :=
        match geomOf st n with
        | some (ShapeGeom.rect _ _ w h) => w == 0 && h == 0
        | _ => false
      if degenerate then
        { st with
          canvasObjects := st.canvasObjects.erase n
          startPoint := none
          rectInProgress := none }
      else
        let objs := layerList st.layerObjects env.activeLayerId
        let st1 :=
          if n ∈ objs then st
          else { st with layerObjects := setLayer st.layerObjects env.activeLayerId (objs ++ [n]) }
        { st1 with startPoint := none, rectInProgress := none }
  | _, _ => st

/-- The source's `mouse:down` of `setupCircleTool`: guard, snap, store start point,
add a zero-radius provisional circle — firing `object:added`. -/
def circleMouseDown (env : CanvasEnv) (p : Point) (st : CanvasState) :
    CanvasState × Option String :=
  match activeLayerGuard env with
  | some msg => (st, some msg)
  | none =>
      let sp := snapToGridPoint env.snapToGrid env.gridSize p
      let n := st.nextShapeId
      let st1 :=
        { st with
          startPoint := some sp
          canvasObjects := st.canvasObjects ++ [n]
          geoms := st.geoms ++ [(n, ShapeGeom.circle sp.x sp.y 0)]
          nextShapeId := n + 1
          circleInProgress := some n }
      (objectAdded env n st1, none)

/-- The source's `mouse:down` of `setupArrowTool`: guard, snap, store start point,
add a zero-length provisional line (the future arrow shaft) — firing
`object:added`. -/
def arrowMouseDown (env : CanvasEnv) (p : Point) (st : CanvasState) :
    CanvasState × Option String :=
  match activeLayerGuard env with
  | some msg => (st, some msg)
  | none =>
      let sp := snapToGridPoint env.snapToGrid env.gridSize p
      let n := st.nextShapeId
      let st1 :=
        { st with
          startPoint := some sp
          canvasObjects := st.canvasObjects ++ [n]
          geoms := st.geoms ++ [(n, ShapeGeom.line sp.x sp.y sp.x sp.y)]
          nextShapeId := n + 1
          arrowInProgress := some n }
      (objectAdded env n st1, none)

/-- The source's `mouse:down` of `setupTextTool`: guard, snap, then an editable text
object is created at the snapped point and added to the canvas — firing
`object:added` — and additionally pushed to the active layer's list
unless already present. -/
def textMouseDown (env : CanvasEnv) (p : Point) (st : CanvasState) :
    CanvasState × Option String :=
  match activeLayerGuard env with
  | some msg => (st, some msg)
  | none =>
      let sp := snapToGridPoint env.snapToGrid env.gridSize p
      let n := st.nextShapeId
      let st1 :=
        { st with
          canvasObjects := st.canvasObjects ++ [n]
          geoms := st.geoms ++ [(n, ShapeGeom.text sp.x sp.y)]
          nextShapeId := n + 1 }
      let st2 := objectAdded env n st1
      let objs := layerList st2.layerObjects env.activeLayerId
      let st3 :=
        if n ∈ objs then st2
        else { st2 with layerObjects := setLayer st2.layerObjects env.activeLayerId (objs ++ [n]) }
      (st3, none)

end Canvas

/-- A decimal digit rendered as a character, as JS string interpolation
renders each digit of a number. -/
def digitToChar (d : Nat) : Char :=
  match d with
  | 0 => '0'
  | 1 => '1'
  | 2 => '2'
  | 3 => '3'
  | 4 => '4'
  | 5 => '5'
  | 6 => '6'
  | 7 => '7'
  | 8 => '8'
  | _ => '9'

/-- Little-endian decimal digits with explicit fuel (so that concrete
values reduce in the kernel); `natDecDigits` below instantiates the
fuel. -/
def natDigitsAux : Nat → Nat → List Nat
  | 0, _ => []
  | fuel + 1, n => if n = 0 then [] else (n % 10) :: natDigitsAux fuel (n / 10)

/-- Little-endian decimal digits of `n` (equal to `Nat.digits 10 n`). -/
def natDecDigits (n : Nat) : List Nat :=
  natDigitsAux n n

/-- JS template interpolation of a non-negative integer
(`` `${n}` ``): its decimal digits, most significant first. -/
def natToString (n : Nat) : String :=
  if n = 0 then String.mk ['0']
  else String.mk ((natDecDigits n).reverse.map digitToChar)

/-- Whitespace as matched by the regex class `\s` (restricted to the
characters that can occur in layer names here). -/
def isWsChar (c : Char) : Bool :=
  c == ' ' || c == '\t' || c == '\n' || c == '\r'

/-- Case-insensitive literal match (the `i` flag of the source regex):
consume `pat` from the head of `cs`, returning the rest. -/
def matchSeqCI (pat : List Char) (cs : List Char) : Option (List Char) :=
  match pat, cs with
  | [], rest => some rest
  | _ :: _, [] => none
  | p :: ps, c :: rest => if c.toLower == p then matchSeqCI ps rest else none

/-- Greedily consume further whitespace (`\s+` after its first
character). -/
def dropWs (cs : List Char) : List Char :=
  match cs with
  | [] => []
  | c :: rest => if isWsChar c then dropWs rest else c :: rest

/-- The source's `parseInt` of a maximal leading digit run (`(\d+)` followed by
`parseInt(match[1], 10)`), accumulating onto `acc`. -/
def takeDigitsVal (acc : Nat) (cs : List Char) : Nat :=
  match cs with
  | [] => acc
  | c :: rest =>
      if c.isDigit then takeDigitsVal (acc * 10 + (c.toNat - 48)) rest else acc

/-- Try to match the regex `/Calque\s+(\d+)/i` at the head of `cs`
(the pattern is stored lowercased, the input is lowered by
`matchSeqCI`). -/
def matchCalqueAt (cs : List Char) : Option Nat :=
  match matchSeqCI ['c', 'a', 'l', 'q', 'u', 'e'] cs with
  | none => none
  | some rest1 =>
      match rest1 with
      | [] => none
      | c :: rest2 =>
          if isWsChar c then
            match dropWs rest2 with
            | [] => none
            | d :: rest3 =>
                if d.isDigit then some (takeDigitsVal 0 (d :: rest3)) else none
          else none

/-- Leftmost match of `/Calque\s+(\d+)/i` in `cs`. -/
def findCalqueMatch (cs : List Char) : Option Nat :=
  match cs with
  | [] => none
  | c :: rest =>
      match matchCalqueAt (c :: rest) with
      | some v => some v
      | none => findCalqueMatch rest

/-- The source's `layer.name.match(/Calque\s+(\d+)/i)` followed by
`match ? parseInt(match[1], 10) : 0`, from `generateUniqueLayerName` in
`useLayerManager.ts`. -/
def parseCalqueNum (s : String) : Nat :=
  (findCalqueMatch s.data).getD 0

/-- The layer-registry state shared by `GridSketch.tsx` and
`useLayerManager.ts`: the ordered layer list (bottom to top of the
z-order) and the id of the active layer. -/
structure LayersState where
  layers : List Layer
  activeLayerId : String
deriving DecidableEq, Repr

/-- The initial state of both layer-state providers: the single default
layer `layer-1` named `Calque 1`, which is active. -/
def initialLayers : LayersState :=
  { layers := [{ id := "layer-1", name := "Calque 1", visible := true, locked := false,
                 objects := [] }]
    activeLayerId := "layer-1" }

namespace LayerManager

/-- The source's `generateUniqueLayerName` from `useLayerManager.ts`: parse a number
out of every existing layer name with `/Calque\s+(\d+)/i` (0 when there
is no match), take the highest (`Math.max(..., 0)`) and return
`Calque <highest + 1>`. -/
def generateUniqueLayerName (layers : List Layer) : String :=
  let existingNumbers := layers.map (fun l => parseCalqueNum l.name)
  let highestNumber := existingNumbers.foldr max 0
  String.mk ['C', 'a', 'l', 'q', 'u', 'e', ' '] ++ natToString (highestNumber + 1)

/-- The source's `addLayer` from `useLayerManager.ts`: the new id is
`` `layer-${Date.now()}` `` (the clock reading is the explicit `now`
argument), the name comes from `generateUniqueLayerName`, the layer is
appended to the list and becomes active. -/
def addLayer (now : Nat) (st : LayersState) : LayersState :=
  let newLayerId := String.mk ['l', 'a', 'y', 'e', 'r', '-'] ++ natToString now
  let newLayer : Layer :=
    { id := newLayerId, name := generateUniqueLayerName st.layers,
      visible := true, locked := false, objects := [] }
  { layers := st.layers ++ [newLayer], activeLayerId := newLayerId }

/-- The source's `removeLayer` from `useLayerManager.ts`: with at most one layer it
is a no-op reporting "Impossible de supprimer le dernier calque" (the
boolean result).  Otherwise, if the removed layer was active, the new
active id is the first remaining layer's id (`remainingLayers[0]?.id ||
""`), and the layer list is filtered. -/
def removeLayer (layerId : String) (st : LayersState) : LayersState × Bool :=
  if st.layers.length ≤ 1 then (st, true)
  else
    let remainingLayers := st.layers.filter (fun l => l.id ≠ layerId)
    let newActiveId :=
      if st.activeLayerId = layerId then
        ((remainingLayers.head?).map (fun l => l.id)).getD ("")
      else st.activeLayerId
    ({ layers := st.layers.filter (fun l => l.id ≠ layerId),
       activeLayerId := newActiveId }, false)

/-- One registry mutation: an `addLayer` call (with its clock reading)
or a `removeLayer` call. -/
inductive LayerOp where
  | addL (now : Nat)
  | removeL (id : String)
deriving DecidableEq, Repr

/-- Apply one registry mutation. -/
def applyLayerOp (st : LayersState) (op : LayerOp) : LayersState :=
  match op with
  | LayerOp.addL now => addLayer now st
  | LayerOp.removeL id => (removeLayer id st).1

/-- Apply a sequence of registry mutations. -/
def applyLayerOps (ops : List LayerOp) (st : LayersState) : LayersState :=
  ops.foldl applyLayerOp st

/-- The ids of the layers, in z-order. -/
def layerIds (st : LayersState) : List String :=
  st.layers.map (fun l => l.id)

/-- The registry invariant: a non-empty layer list, an active id naming
an existing layer, and pairwise distinct layer ids. -/
def LayerInv (st : LayersState) : Prop :=
  st.layers ≠ [] ∧ st.activeLayerId ∈ layerIds st ∧ (layerIds st).Nodup

instance (st : LayersState) : Decidable (LayerInv st) := by
  unfold LayerInv
  infer_instance

/-- A run of registry mutations in which every `addLayer` call observes
a clock value whose generated id is not already in use (true of real
runs whenever successive calls see distinct clock readings). -/
def freshRun : LayersState → List LayerOp → Bool
  | _, [] => true
  | st, LayerOp.addL now :: rest =>
      decide ((String.mk ['l', 'a', 'y', 'e', 'r', '-'] ++ natToString now) ∉ layerIds st) &&
      freshRun (applyLayerOp st (LayerOp.addL now)) rest
  | st, LayerOp.removeL id :: rest =>
      freshRun (applyLayerOp st (LayerOp.removeL id)) rest

end LayerManager

namespace GridSketch

/-- The source's `addLayer` from `GridSketch.tsx`: same `` `layer-${Date.now()}` ``
id generation, but the name is `` `Calque ${layers.length + 1}` ``; the
layer is appended and becomes active. -/
def addLayer (now : Nat) (st : LayersState) : LayersState :=
  let newLayerId := String.mk ['l', 'a', 'y', 'e', 'r', '-'] ++ natToString now
  let newLayer : Layer :=
    { id := newLayerId,
      name := String.mk ['C', 'a', 'l', 'q', 'u', 'e', ' '] ++ natToString (st.layers.length + 1),
      visible := true, locked := false, objects := [] }
  { layers := st.layers ++ [newLayer], activeLayerId := newLayerId }

/-- The source's `removeLayer` from `GridSketch.tsx`: no-op with a warning for the
last layer; otherwise filter the list and, if the active layer was
removed, activate `updatedLayers[0]` — an access that throws (`none`)
when the filtered list is empty. -/
def removeLayer (layerId : String) (st : LayersState) : Option (LayersState × Bool) :=
  if st.layers.length ≤ 1 then some (st, true)
  else
    let updatedLayers := st.layers.filter (fun l => l.id ≠ layerId)
    if st.activeLayerId = layerId then
      match updatedLayers.head? with
      | none => none
      | some l => some ({ layers := updatedLayers, activeLayerId := l.id }, false)
    else some ({ layers := updatedLayers, activeLayerId := st.activeLayerId }, false)

end GridSketch

/-- The state visible to `toggleLayerVisibility`: the layer registry
plus the undo/redo refs of the `Canvas` component.  The toggle handlers
in both `useLayerManager.ts` and `GridSketch.tsx` call only
`setLayers`, so lifting them to this combined state makes their frame
explicit. -/
structure SketchAppState where
  layers : List Layer
  activeLayerId : String
  history : List HistoryAction
  historyIndex : Int
deriving DecidableEq, Repr

/-- The source's `toggleLayerVisibility` from `useLayerManager.ts`: if no layer has
the given id, return unchanged (after a console error).  Otherwise
compute the negation of the found layer's visibility and map it onto
every layer with that id, leaving all other fields and layers, the
active id and the history untouched. -/
def toggleLayerVisibility (layerId : String) (st : SketchAppState) : SketchAppState :=
  match st.layers.find? (fun l => l.id == layerId) with
  | none => st
  | some targetLayer =>
      let newVisibility := !targetLayer.visible
      { st with
        layers := st.layers.map
          (fun l => if l.id = layerId then { l with visible := newVisibility } else l) }

namespace Canvas

/-- A sample environment: one unlocked visible layer `layer-1`, active,
snapping disabled, cell size 20. -/
def sampleEnv : CanvasEnv :=
  { layers := [{ id := "layer-1", name := "Calque 1", visible := true, locked := false,
                 objects := [] }]
    activeLayerId := "layer-1", snapToGrid := false, gridSize := 20 }

/-- A sample environment whose only (active) layer is locked. -/
def lockedEnv : CanvasEnv :=
  { layers := [{ id := "layer-1", name := "Calque 1", visible := true, locked := true,
                 objects := [] }]
    activeLayerId := "layer-1", snapToGrid := false, gridSize := 20 }

/-- A sample environment with no layer matching the active id. -/
def missingEnv : CanvasEnv :=
  { layers := [], activeLayerId := "layer-1", snapToGrid := false, gridSize := 20 }

/-- The canvas state right after mounting: nothing drawn, empty
history, cursor at \(-1\). -/
def emptyCanvasState : CanvasState :=
  { canvasObjects := [], layerObjects := [], geoms := [], history := [],
    historyIndex := -1, nextShapeId := 0, startPoint := none,
    lineInProgress := none, rectInProgress := none, circleInProgress := none,
    arrowInProgress := none }

/-- The state after one completed non-degenerate line gesture
(press at (5,5), drag to (33,18), release) in `sampleEnv`. -/
def lineDrawnState : CanvasState :=
  lineMouseUp sampleEnv
    (lineMouseMove sampleEnv { x := 33, y := 18 }
      ((lineMouseDown sampleEnv { x := 5, y := 5 } emptyCanvasState).1))

/-- The state after one degenerate line gesture (press at (5,5) and
release without moving) in `sampleEnv`. -/
def degenerateLineState : CanvasState :=
  lineMouseUp sampleEnv ((lineMouseDown sampleEnv { x := 5, y := 5 } emptyCanvasState).1)

/-- A canvas state whose cursor entry is a `modify` of shape 0, which
sits at geometry `line 0 0 20 20` after the modification. -/
def modifyEntryState : CanvasState :=
  { canvasObjects := [0]
    layerObjects := [("layer-1", [0])]
    geoms := [(0, ShapeGeom.line 0 0 20 20)]
    history := [{ objects := [0], type := ActionType.modify, layerId := "layer-1" }]
    historyIndex := 0, nextShapeId := 1, startPoint := none,
    lineInProgress := none, rectInProgress := none, circleInProgress := none,
    arrowInProgress := none }

/-- A canvas state in which the redoable entry is an `add` of shape 0
while shape 0 is already present in the layer list. -/
def presentAddState : CanvasState :=
  { canvasObjects := []
    layerObjects := [("layer-1", [0])]
    geoms := []
    history := [{ objects := [0], type := ActionType.add, layerId := "layer-1" }]
    historyIndex := -1, nextShapeId := 1, startPoint := none,
    lineInProgress := none, rectInProgress := none, circleInProgress := none,
    arrowInProgress := none }

end Canvas

/-- A two-layer application state used to exercise
`toggleLayerVisibility`. -/
def toggleSampleState : SketchAppState :=
  { layers := [{ id := "layer-1", name := "Calque 1", visible := true, locked := false,
                 objects := [0] },
               { id := "layer-2", name := "Calque 2", visible := true, locked := false,
                 objects := [] }]
    activeLayerId := "layer-1"
    history := [{ objects := [0], type := ActionType.add, layerId := "layer-1" }]
    historyIndex := 0 }

/-! ## Theorems -/

namespace Canvas

theorem round_mul_nearest (c x : ℚ) (hc : 0 < c) (k : ℤ) :
    |((round (x / c) : ℤ) : ℚ) * c - x| ≤ |(k : ℚ) * c - x| := by
  have hc0 : c ≠ 0 := ne_of_gt hc
  have h1 : ((round (x / c) : ℤ) : ℚ) * c - x = ((round (x / c) : ℤ) - x / c) * c := by
    rw [sub_mul, div_mul_cancel₀ x hc0]
  have h2 : (k : ℚ) * c - x = ((k : ℚ) - x / c) * c := by
    rw [sub_mul, div_mul_cancel₀ x hc0]
  rw [h1, h2, abs_mul, abs_mul]
  refine mul_le_mul_of_nonneg_right ?_ (abs_nonneg c)
  calc |((round (x / c) : ℤ) : ℚ) - x / c|
      = |x / c - (round (x / c) : ℤ)| := abs_sub_comm _ _
    _ ≤ |x / c - (k : ℚ)| := round_le (x / c) k
    _ = |(k : ℚ) - x / c| := abs_sub_comm _ _

/-- C9: `snapToGridPoint` is the identity when snapping is disabled;
with snapping enabled and a positive cell size it rounds each
coordinate independently to a nearest multiple of the cell size; it is
idempotent; and a point whose coordinates are already integer multiples
of the cell size is returned unchanged. -/
theorem snap_nearest_identity_idempotent (c : ℚ) (hc : 0 < c) (sg : Bool) (p : Point) :
    snapToGridPoint false c p = p ∧
    (∀ k : ℤ, |(snapToGridPoint true c p).x - p.x| ≤ |(k : ℚ) * c - p.x|) ∧
    (∀ k : ℤ, |(snapToGridPoint true c p).y - p.y| ≤ |(k : ℚ) * c - p.y|) ∧
    snapToGridPoint sg c (snapToGridPoint sg c p) = snapToGridPoint sg c p ∧
    (∀ m n : ℤ, p.x = (m : ℚ) * c → p.y = (n : ℚ) * c → snapToGridPoint sg c p = p) := by
  have hc0 : c ≠ 0 := ne_of_gt hc
  have hfix : ∀ q : Point, (∀ m n : ℤ, q.x = (m : ℚ) * c → q.y = (n : ℚ) * c →
      snapToGridPoint true c q = q) := by
    intro q m n hx hy
    have hxc : q.x / c = (m : ℚ) := by rw [hx, mul_div_cancel_right₀ _ hc0]
    have hyc : q.y / c = (n : ℚ) := by rw [hy, mul_div_cancel_right₀ _ hc0]
    simp only [snapToGridPoint, Bool.not_true, Bool.false_eq_true, if_false, hxc, hyc,
      round_intCast]
    cases q
    simp_all
  refine ⟨rfl, ?_, ?_, ?_, ?_⟩
  · intro k
    simpa only [snapToGridPoint, Bool.not_true, Bool.false_eq_true, if_false] using
      round_mul_nearest c p.x hc k
  · intro k
    simpa only [snapToGridPoint, Bool.not_true, Bool.false_eq_true, if_false] using
      round_mul_nearest c p.y hc k
  · cases sg with
    | false => rfl
    | true =>
        exact hfix (snapToGridPoint true c p) (round (p.x / c)) (round (p.y / c)) rfl rfl
  · intro m n hx hy
    cases sg with
    | false => rfl
    | true => exact hfix p m n hx hy

/-- Witness for C9 at cell size 20 and the point (5, 5). -/
theorem snap_nearest_identity_idempotent_witness :
    0 < (20 : ℚ) ∧
    (snapToGridPoint false 20 { x := 5, y := 5 } = { x := 5, y := 5 } ∧
     (∀ k : ℤ, |(snapToGridPoint true 20 { x := (5 : ℚ), y := 5 }).x - 5| ≤ |(k : ℚ) * 20 - 5|) ∧
     (∀ k : ℤ, |(snapToGridPoint true 20 { x := (5 : ℚ), y := 5 }).y - 5| ≤ |(k : ℚ) * 20 - 5|) ∧
     snapToGridPoint true 20 (snapToGridPoint true 20 { x := 5, y := 5 }) =
       snapToGridPoint true 20 { x := 5, y := 5 } ∧
     (∀ m n : ℤ, (5 : ℚ) = (m : ℚ) * 20 → (5 : ℚ) = (n : ℚ) * 20 →
       snapToGridPoint true 20 { x := 5, y := 5 } = { x := 5, y := 5 })) :=
  ⟨by norm_num, snap_nearest_identity_idempotent 20 (by norm_num) true { x := 5, y := 5 }⟩

/-- C5: `saveHistoryState` discards every entry after the cursor (the
result is the preserved prefix up to the cursor plus the new entry) and
leaves the cursor at the new last index, so the log then holds exactly
`cursor + 1` entries and none from the discarded redo branch. -/
theorem record_truncates_then_appends (objects : List Nat) (ty : ActionType)
    (layerId : String) (st : CanvasState) (h : -1 ≤ st.historyIndex) :
    (saveHistoryState objects ty layerId st).history =
      st.history.take ((st.historyIndex + 1).toNat) ++
        [{ objects := objects, type := ty, layerId := layerId }] ∧
    (saveHistoryState objects ty layerId st).historyIndex =
      ((saveHistoryState objects ty layerId st).history.length : Int) - 1 ∧
    ((saveHistoryState objects ty layerId st).history.length : Int) =
      (saveHistoryState objects ty layerId st).historyIndex + 1 := by
  unfold saveHistoryState jsSliceTo
  by_cases hlt : st.historyIndex < (st.history.length : Int) - 1
  · have h2 : ¬ st.historyIndex + 1 < 0 := by omega
    simp [hlt, h2]
  · have hlen : st.history.length ≤ (st.historyIndex + 1).toNat := by omega
    simp [hlt, List.take_of_length_le hlen]

/-- Witness for C5 on the freshly mounted canvas state. -/
theorem record_truncates_then_appends_witness :
    -1 ≤ emptyCanvasState.historyIndex ∧
    (saveHistoryState [0] ActionType.add ("layer-1") emptyCanvasState).history =
      emptyCanvasState.history.take ((emptyCanvasState.historyIndex + 1).toNat) ++
        [{ objects := [0], type := ActionType.add, layerId := "layer-1" }] :=
  ⟨by decide,
   (record_truncates_then_appends [0] ActionType.add ("layer-1") emptyCanvasState
     (by decide)).1⟩

/-- C1 (failing on the code): after drawing one line (an `add` entry,
layer list `[0]`), `performUndo` followed by `performRedo` leaves the
layer's object list empty instead of restoring `[0]` — the redo guard
pushes an object back only when it is already present. -/
theorem undo_redo_does_not_restore_added_object :
    layerList lineDrawnState.layerObjects ("layer-1") = [0] ∧
    intGet? lineDrawnState.history lineDrawnState.historyIndex =
      some { objects := [0], type := ActionType.add, layerId := "layer-1" } ∧
    layerList (performRedo (performUndo lineDrawnState)).layerObjects ("layer-1") = [] ∧
    [] ≠ [0] := by
  refine ⟨by decide, by decide, by decide, by decide⟩

/-- C4 (failing on the code): a zero-length line gesture leaves an
`add` history entry (recorded at press time by the `object:added`
handler) and keeps the discarded shape in the layer's object list; only
the canvas itself is cleaned up. -/
theorem degenerate_line_keeps_entry_and_object :
    degenerateLineState.history =
      [{ objects := [0], type := ActionType.add, layerId := "layer-1" }] ∧
    layerList degenerateLineState.layerObjects ("layer-1") = [0] ∧
    degenerateLineState.canvasObjects = [] := by
  refine ⟨by decide, by decide, by decide⟩

/-- C2 (failing on the code): undoing or redoing a `modify` history
entry changes nothing but the cursor — in particular every recorded
geometry, the layer lists and the canvas are untouched, and no
pre-modification snapshot exists to restore. -/
theorem modify_undo_redo_changes_only_cursor (st : CanvasState) :
    (∀ e, intGet? st.history st.historyIndex = some e → e.type = ActionType.modify →
      performUndo st = { st with historyIndex := st.historyIndex - 1 }) ∧
    (∀ e, st.historyIndex < (st.history.length : Int) - 1 →
      intGet? st.history (st.historyIndex + 1) = some e → e.type = ActionType.modify →
      performRedo st = { st with historyIndex := st.historyIndex + 1 }) := by
  constructor
  · intro e he hm
    have hpos : ¬ st.historyIndex < 0 := by
      intro hneg
      rw [intGet?, if_pos hneg] at he
      exact Option.noConfusion he
    simp [performUndo, if_neg hpos, he, hm]
  · intro e hlt he hm
    have hguard : ¬ st.historyIndex ≥ (st.history.length : Int) - 1 := by omega
    have hnn : ¬ st.historyIndex + 1 < 0 := by
      intro hneg
      rw [intGet?, if_pos hneg] at he
      exact Option.noConfusion he
    have hb : (st.historyIndex + 1).toNat < st.history.length := by
      rw [intGet?, if_neg hnn] at he
      exact (List.getElem?_eq_some.1 he).1
    simp [performRedo, if_neg hguard, he, hm]
    intro hcontra
    exact absurd hcontra (by omega)

/-- Witness for C2 on a state whose cursor entry is a `modify`. -/
theorem modify_undo_redo_changes_only_cursor_witness :
    intGet? modifyEntryState.history modifyEntryState.historyIndex =
      some { objects := [0], type := ActionType.modify, layerId := "layer-1" } ∧
    performUndo modifyEntryState =
      { modifyEntryState with historyIndex := modifyEntryState.historyIndex - 1 } :=
  ⟨by decide,
   (modify_undo_redo_changes_only_cursor modifyEntryState).1
     { objects := [0], type := ActionType.modify, layerId := "layer-1" } (by decide) rfl⟩

/-- C7: on `mouse:down` of each of the five drawing tools, a missing
active layer or a locked active layer produces the corresponding error
toast and leaves the state untouched — no provisional shape, no history
entry, no layer-list change. -/
theorem press_on_locked_or_missing_layer_aborts (env : CanvasEnv) (p : Point)
    (st : CanvasState) :
    (env.layers.find? (fun l => l.id == env.activeLayerId) = none →
      lineMouseDown env p st = (st, some ("Calque actif non trouvé")) ∧
      rectMouseDown env p st = (st, some ("Calque actif non trouvé")) ∧
      circleMouseDown env p st = (st, some ("Calque actif non trouvé")) ∧
      arrowMouseDown env p st = (st, some ("Calque actif non trouvé")) ∧
      textMouseDown env p st = (st, some ("Calque actif non trouvé"))) ∧
    (∀ L, env.layers.find? (fun l => l.id == env.activeLayerId) = some L →
      L.locked = true →
      lineMouseDown env p st = (st, some ("Le calque est verrouillé")) ∧
      rectMouseDown env p st = (st, some ("Le calque est verrouillé")) ∧
      circleMouseDown env p st = (st, some ("Le calque est verrouillé")) ∧
      arrowMouseDown env p st = (st, some ("Le calque est verrouillé")) ∧
      textMouseDown env p st = (st, some ("Le calque est verrouillé"))) := by
  constructor
  · intro hnone
    have hg : activeLayerGuard env = some ("Calque actif non trouvé") := by
      unfold activeLayerGuard
      rw [hnone]
    exact ⟨by simp [lineMouseDown, hg], by simp [rectMouseDown, hg],
           by simp [circleMouseDown, hg], by simp [arrowMouseDown, hg],
           by simp [textMouseDown, hg]⟩
  · intro L hsome hlock
    have hg : activeLayerGuard env = some ("Le calque est verrouillé") := by
      unfold activeLayerGuard
      rw [hsome]
      simp [hlock]
    exact ⟨by simp [lineMouseDown, hg], by simp [rectMouseDown, hg],
           by simp [circleMouseDown, hg], by simp [arrowMouseDown, hg],
           by simp [textMouseDown, hg]⟩

/-- Witness for C7 on the locked single-layer environment. -/
theorem press_on_locked_or_missing_layer_aborts_witness :
    lockedEnv.layers.find? (fun l => l.id == lockedEnv.activeLayerId) =
      some { id := "layer-1", name := "Calque 1", visible := true, locked := true,
             objects := [] } ∧
    lineMouseDown lockedEnv { x := 5, y := 5 } emptyCanvasState =
      (emptyCanvasState, some ("Le calque est verrouillé")) :=
  ⟨by decide,
   ((press_on_locked_or_missing_layer_aborts lockedEnv { x := 5, y := 5 }
       emptyCanvasState).2
     { id := "layer-1", name := "Calque 1", visible := true, locked := true,
       objects := [] } (by decide) rfl).1⟩

end Canvas

/-- C10: `toggleLayerVisibility` with an id naming no layer leaves the
whole state unchanged; the active layer id and the undo/redo history
are always untouched; and with unique layer ids, the layer at each
position is unchanged when its id differs from the target and has
exactly its `visible` flag negated (id, name, lock flag and object list
intact) when its id matches. -/
theorem toggleVisibility_flips_only_target (st : SketchAppState) (layerId : String) :
    (st.layers.find? (fun l => l.id == layerId) = none →
      toggleLayerVisibility layerId st = st) ∧
    (toggleLayerVisibility layerId st).activeLayerId = st.activeLayerId ∧
    (toggleLayerVisibility layerId st).history = st.history ∧
    (toggleLayerVisibility layerId st).historyIndex = st.historyIndex ∧
    (∀ L : Layer, st.layers.find? (fun l => l.id == layerId) = some L →
      (st.layers.map (fun l => l.id)).Nodup →
      ∀ (i : Nat) (L2 : Layer), st.layers[i]? = some L2 →
        (toggleLayerVisibility layerId st).layers[i]? =
          some (if L2.id = layerId then { L2 with visible := !L2.visible } else L2)) := by
  refine ⟨?_, ?_, ?_, ?_, ?_⟩
  · intro h
    simp [toggleLayerVisibility, h]
  · unfold toggleLayerVisibility
    cases hf : st.layers.find? (fun l => l.id == layerId) <;> simp
  · unfold toggleLayerVisibility
    cases hf : st.layers.find? (fun l => l.id == layerId) <;> simp
  · unfold toggleLayerVisibility
    cases hf : st.layers.find? (fun l => l.id == layerId) <;> simp
  · intro L hL hnd i L2 hi
    have hLmem : L ∈ st.layers := List.mem_of_find?_eq_some hL
    have hLid : L.id = layerId := by simpa using List.find?_some hL
    have hL2mem : L2 ∈ st.layers := by
      obtain ⟨hb, heq⟩ := List.getElem?_eq_some.1 hi
      rw [← heq]
      exact List.getElem_mem hb
    simp only [toggleLayerVisibility, hL]
    rw [List.getElem?_map, hi]
    by_cases hid : L2.id = layerId
    · have hLL2 : L = L2 :=
        List.inj_on_of_nodup_map hnd hLmem hL2mem (by rw [hLid, hid])
      subst hLL2
      simp [hid]
    · simp [hid]

/-- Witness for C10: toggling `layer-2` in the two-layer sample state
flips exactly that layer's visibility. -/
theorem toggleVisibility_flips_only_target_witness :
    toggleSampleState.layers.find? (fun l => l.id == ("layer-2")) =
      some { id := "layer-2", name := "Calque 2", visible := true, locked := false,
             objects := [] } ∧
    (toggleLayerVisibility ("layer-2") toggleSampleState).layers[1]? =
      some (if ("layer-2" : String) = ("layer-2") then
              { Layer.mk ("layer-2") ("Calque 2") true false [] with visible := !true }
            else Layer.mk ("layer-2") ("Calque 2") true false []) :=
  ⟨by decide,
   (toggleVisibility_flips_only_target toggleSampleState ("layer-2")).2.2.2.2
     { id := "layer-2", name := "Calque 2", visible := true, locked := false, objects := [] }
     (by decide) (by decide) 1
     { id := "layer-2", name := "Calque 2", visible := true, locked := false, objects := [] }
     (by decide)⟩

theorem natDigitsAux_eq_digits (fuel : Nat) : ∀ n : Nat, n ≤ fuel →
    natDigitsAux fuel n = Nat.digits 10 n := by
  induction fuel with
  | zero =>
      intro n h
      have : n = 0 := Nat.le_zero.1 h
      subst this
      simp [natDigitsAux]
  | succ f ih =>
      intro n h
      by_cases hn : n = 0
      · subst hn
        simp [natDigitsAux]
      · have hpos : 0 < n := Nat.pos_of_ne_zero hn
        have hdiv : n / 10 < n := Nat.div_lt_self hpos (by norm_num)
        rw [natDigitsAux, if_neg hn, ih (n / 10) (by omega),
          ← Nat.digits_def' (show (1 : Nat) < 10 by norm_num) hpos]

theorem natDecDigits_eq_digits (n : Nat) : natDecDigits n = Nat.digits 10 n :=
  natDigitsAux_eq_digits n n le_rfl

theorem digitToChar_isDigit (d : Nat) (h : d < 10) : (digitToChar d).isDigit = true := by
  interval_cases d <;> decide

theorem digitToChar_toNat (d : Nat) (h : d < 10) : (digitToChar d).toNat - 48 = d := by
  interval_cases d <;> decide

theorem digitToChar_not_ws (d : Nat) (h : d < 10) : isWsChar (digitToChar d) = false := by
  interval_cases d <;> decide

theorem takeDigitsVal_append (xs ys : List Char) (h : ∀ c ∈ xs, c.isDigit = true) :
    ∀ acc : Nat, takeDigitsVal acc (xs ++ ys) = takeDigitsVal (takeDigitsVal acc xs) ys := by
  induction xs with
  | nil => intro acc; rfl
  | cons c cs ih =>
      intro acc
      have hc : c.isDigit = true := h c (List.mem_cons_self c cs)
      rw [List.cons_append, takeDigitsVal, takeDigitsVal, hc]
      simp only [if_true]
      exact ih (fun x hx => h x (List.mem_cons_of_mem c hx)) _

theorem takeDigitsVal_digits (L : List Nat) (hL : ∀ d ∈ L, d < 10) :
    ∀ acc : Nat, takeDigitsVal acc (L.reverse.map digitToChar) =
      acc * 10 ^ L.length + Nat.ofDigits 10 L := by
  induction L with
  | nil => intro acc; simp [takeDigitsVal, Nat.ofDigits_nil]
  | cons d L ih =>
      intro acc
      have hd : d < 10 := hL d (List.mem_cons_self d L)
      have hL2 : ∀ x ∈ L, x < 10 := fun x hx => hL x (List.mem_cons_of_mem d hx)
      have hdigs : ∀ c ∈ L.reverse.map digitToChar, c.isDigit = true := by
        intro c hc
        obtain ⟨d2, hd2, rfl⟩ := List.mem_map.1 hc
        exact digitToChar_isDigit d2 (hL2 d2 (List.mem_reverse.1 hd2))
      rw [List.reverse_cons, List.map_append, takeDigitsVal_append _ _ hdigs, ih hL2]
      simp only [List.map_cons, List.map_nil, takeDigitsVal, digitToChar_isDigit d hd,
        if_true, digitToChar_toNat d hd, Nat.ofDigits_cons, List.length_cons]
      ring

theorem takeDigitsVal_natToString (k : Nat) :
    takeDigitsVal 0 (natToString k).data = k := by
  by_cases hk : k = 0
  · subst hk
    decide
  · rw [natToString, if_neg hk, natDecDigits_eq_digits]
    have h := takeDigitsVal_digits (Nat.digits 10 k)
      (fun d hd => Nat.digits_lt_base (by norm_num) hd) 0
    simpa [Nat.ofDigits_digits] using h

theorem natToString_head (k : Nat) :
    ∃ c cs, (natToString k).data = c :: cs ∧ c.isDigit = true ∧ isWsChar c = false := by
  by_cases hk : k = 0
  · subst hk
    exact ⟨'0', [], by decide, by decide, by decide⟩
  · rw [natToString, if_neg hk, natDecDigits_eq_digits]
    have hne : Nat.digits 10 k ≠ [] := Nat.digits_ne_nil_iff_ne_zero.mpr hk
    have hne2 : (Nat.digits 10 k).reverse.map digitToChar ≠ [] := by
      simp [hne]
    obtain ⟨c, cs, hcons⟩ := List.exists_cons_of_ne_nil hne2
    have hcmem : c ∈ (Nat.digits 10 k).reverse.map digitToChar := by
      rw [hcons]
      exact List.mem_cons_self c cs
    obtain ⟨d, hd, rfl⟩ := List.mem_map.1 hcmem
    have hdlt : d < 10 := Nat.digits_lt_base (by norm_num) (List.mem_reverse.1 hd)
    exact ⟨digitToChar d, cs, hcons, digitToChar_isDigit d hdlt, digitToChar_not_ws d hdlt⟩

theorem parseCalqueNum_generated (k : Nat) :
    parseCalqueNum (String.mk ['C', 'a', 'l', 'q', 'u', 'e', ' '] ++ natToString k) = k := by
  obtain ⟨c, cs, hdata, hdig, hws⟩ := natToString_head k
  have hdata2 : (String.mk ['C', 'a', 'l', 'q', 'u', 'e', ' '] ++ natToString k).data =
      'C' :: 'a' :: 'l' :: 'q' :: 'u' :: 'e' :: ' ' :: c :: cs := by
    rw [String.data_append, hdata]
    rfl
  have hseq : matchSeqCI ['c', 'a', 'l', 'q', 'u', 'e']
      ('C' :: 'a' :: 'l' :: 'q' :: 'u' :: 'e' :: ' ' :: c :: cs) = some (' ' :: c :: cs) := rfl
  have hAt : matchCalqueAt ('C' :: 'a' :: 'l' :: 'q' :: 'u' :: 'e' :: ' ' :: c :: cs) =
      some (takeDigitsVal 0 (c :: cs)) := by
    unfold matchCalqueAt
    rw [hseq]
    simp only [show isWsChar ' ' = true from rfl, if_true, dropWs, hws, Bool.false_eq_true,
      if_false, hdig]
  have hFind : findCalqueMatch ('C' :: 'a' :: 'l' :: 'q' :: 'u' :: 'e' :: ' ' :: c :: cs) =
      some (takeDigitsVal 0 (c :: cs)) := by
    unfold findCalqueMatch
    rw [hAt]
  rw [parseCalqueNum, hdata2, hFind, Option.getD_some, ← takeDigitsVal_natToString k, hdata]

theorem le_foldr_max (l : List Nat) (a : Nat) (h : a ∈ l) : a ≤ l.foldr max 0 := by
  induction l with
  | nil => cases h
  | cons x xs ih =>
      rcases List.mem_cons.1 h with rfl | h2
      · exact le_max_left _ _
      · exact le_trans (ih h2) (le_max_right _ _)

namespace LayerManager

theorem generateUniqueLayerName_fresh (layers : List Layer) :
    ∀ l ∈ layers, l.name ≠ generateUniqueLayerName layers := by
  intro l hl heq
  have hparse : parseCalqueNum l.name =
      (layers.map (fun x => parseCalqueNum x.name)).foldr max 0 + 1 := by
    rw [heq]
    exact parseCalqueNum_generated _
  have hle : parseCalqueNum l.name ≤ (layers.map (fun x => parseCalqueNum x.name)).foldr max 0 :=
    le_foldr_max _ _ (List.mem_map.2 ⟨l, hl, rfl⟩)
  omega

/-- C8 (amended): `addLayer` (both the `useLayerManager` and the
`GridSketch` variant) appends the new layer at the end of the list and
makes it active; its id is `layer-<clock>`, which is fresh exactly
under the stated proviso that no existing id equals it (rapid repeated
calls within one clock tick violate the proviso); and the
`useLayerManager` default name differs from every existing layer
name. -/
theorem addLayer_appends_activates_fresh (now : Nat) (st : LayersState)
    (hfresh : (String.mk ['l', 'a', 'y', 'e', 'r', '-'] ++ natToString now) ∉ layerIds st) :
    (addLayer now st).layers = st.layers ++
      [{ id := String.mk ['l', 'a', 'y', 'e', 'r', '-'] ++ natToString now,
         name := generateUniqueLayerName st.layers,
         visible := true, locked := false, objects := [] }] ∧
    (addLayer now st).activeLayerId =
      String.mk ['l', 'a', 'y', 'e', 'r', '-'] ++ natToString now ∧
    (String.mk ['l', 'a', 'y', 'e', 'r', '-'] ++ natToString now) ∉ layerIds st ∧
    (∀ l ∈ st.layers, l.name ≠ generateUniqueLayerName st.layers) ∧
    (GridSketch.addLayer now st).layers = st.layers ++
      [{ id := String.mk ['l', 'a', 'y', 'e', 'r', '-'] ++ natToString now,
         name := String.mk ['C', 'a', 'l', 'q', 'u', 'e', ' '] ++
           natToString (st.layers.length + 1),
         visible := true, locked := false, objects := [] }] ∧
    (GridSketch.addLayer now st).activeLayerId =
      String.mk ['l', 'a', 'y', 'e', 'r', '-'] ++ natToString now :=
  ⟨rfl, rfl, hfresh, generateUniqueLayerName_fresh st.layers, rfl, rfl⟩

/-- Witness for C8 (amended) adding a layer at clock value 2 to the
initial registry. -/
theorem addLayer_appends_activates_fresh_witness :
    (String.mk ['l', 'a', 'y', 'e', 'r', '-'] ++ natToString 2) ∉ layerIds initialLayers ∧
    (addLayer 2 initialLayers).activeLayerId =
      String.mk ['l', 'a', 'y', 'e', 'r', '-'] ++ natToString 2 :=
  ⟨by decide, (addLayer_appends_activates_fresh 2 initialLayers (by decide)).2.1⟩

/-- C8 (counterexample to the claim as stated): two `addLayer` calls
observing the same `Date.now()` reading produce identical layer ids
(the second id names an existing layer), and the `GridSketch` variant
reuses the default name `Calque 2` after a removal. -/
theorem addLayer_same_timestamp_id_collision :
    layerIds (addLayer 100 initialLayers) = ["layer-1", "layer-100"] ∧
    (addLayer 100 (addLayer 100 initialLayers)).activeLayerId = "layer-100" ∧
    ¬ (layerIds (addLayer 100 (addLayer 100 initialLayers))).Nodup ∧
    ((GridSketch.removeLayer ("layer-1") (GridSketch.addLayer 2 initialLayers)).map
      (fun r => (GridSketch.addLayer 3 r.1).layers.map (fun l => l.name))) =
      some ["Calque 2", "Calque 2"] := by
  refine ⟨by decide, by decide, by decide, by decide⟩

theorem exists_layer_ne_id (layers : List Layer) (h2 : 2 ≤ layers.length)
    (hnd : (layers.map (fun l => l.id)).Nodup) (x : String) :
    ∃ l ∈ layers, l.id ≠ x := by
  cases layers with
  | nil => simp at h2
  | cons a t =>
      cases t with
      | nil => simp at h2
      | cons b rest =>
          by_cases hax : a.id = x
          · refine ⟨b, by simp, ?_⟩
            have hne : ¬ (a.id = b.id ∨ a.id ∈ rest.map (fun l => l.id)) := by
              have := (List.nodup_cons.1 hnd).1
              simpa using this
            rw [← hax]
            intro hbx
            exact hne (Or.inl hbx.symm)
          · exact ⟨a, by simp, hax⟩

theorem removeLayer_eq_of_lt (layerId : String) (st : LayersState)
    (h : ¬ st.layers.length ≤ 1) :
    removeLayer layerId st =
      ({ layers := st.layers.filter (fun l => l.id ≠ layerId),
         activeLayerId :=
           if st.activeLayerId = layerId then
             (((st.layers.filter (fun l => l.id ≠ layerId)).head?).map (fun l => l.id)).getD ("")
           else st.activeLayerId }, false) := by
  unfold removeLayer
  rw [if_neg h]

theorem addLayer_inv (now : Nat) (st : LayersState) (hinv : LayerInv st)
    (hfresh : (String.mk ['l', 'a', 'y', 'e', 'r', '-'] ++ natToString now) ∉ layerIds st) :
    LayerInv (addLayer now st) := by
  obtain ⟨hne, hmem, hnd⟩ := hinv
  have hids : layerIds (addLayer now st) =
      layerIds st ++ [String.mk ['l', 'a', 'y', 'e', 'r', '-'] ++ natToString now] := by
    simp [addLayer, layerIds]
  refine ⟨by simp [addLayer], ?_, ?_⟩
  · rw [hids]
    simp [addLayer]
  · rw [hids]
    exact List.Nodup.append hnd (List.nodup_singleton _)
      (fun a ha hb => by
        rw [List.mem_singleton.1 hb] at ha
        exact hfresh ha)

theorem removeLayer_inv (layerId : String) (st : LayersState) (hinv : LayerInv st) :
    LayerInv (removeLayer layerId st).1 := by
  obtain ⟨hne, hmem, hnd⟩ := hinv
  by_cases hlen : st.layers.length ≤ 1
  · unfold removeLayer
    rw [if_pos hlen]
    exact ⟨hne, hmem, hnd⟩
  · rw [removeLayer_eq_of_lt layerId st hlen]
    have hnd2 : ((st.layers.filter (fun l => l.id ≠ layerId)).map (fun l => l.id)).Nodup :=
      List.Nodup.sublist (List.Sublist.map _ (List.filter_sublist _)) hnd
    by_cases hact : st.activeLayerId = layerId
    · obtain ⟨l0, hl0mem, hl0ne⟩ :=
        exists_layer_ne_id st.layers (by omega) hnd layerId
      have hl0f : l0 ∈ st.layers.filter (fun l => l.id ≠ layerId) := by
        rw [List.mem_filter]
        exact ⟨hl0mem, by simpa using hl0ne⟩
      have hfne : st.layers.filter (fun l => l.id ≠ layerId) ≠ [] :=
        List.ne_nil_of_mem hl0f
      obtain ⟨hd, tl, hcons⟩ := List.exists_cons_of_ne_nil hfne
      refine ⟨by simpa using hfne, ?_, hnd2⟩
      show (if st.activeLayerId = layerId then _ else st.activeLayerId) ∈ _
      rw [if_pos hact]
      simp only [layerIds, hcons, List.head?_cons, Option.map_some, Option.getD_some,
        List.map_cons]
      exact List.mem_cons_self _ _
    · have hactf : st.activeLayerId ∈ (st.layers.filter (fun l => l.id ≠ layerId)).map
          (fun l => l.id) := by
        obtain ⟨l1, hl1mem, hl1id⟩ := List.mem_map.1 hmem
        refine List.mem_map.2 ⟨l1, List.mem_filter.2 ⟨hl1mem, ?_⟩, hl1id⟩
        simp only [decide_eq_true_eq]
        intro hcontra
        exact hact (by rw [← hl1id, hcontra])
      refine ⟨?_, ?_, hnd2⟩
      · intro hnil
        have hF : st.layers.filter (fun l => decide (l.id ≠ layerId)) = [] := hnil
        rw [hF] at hactf
        simp at hactf
      · show (if st.activeLayerId = layerId then _ else st.activeLayerId) ∈ _
        rw [if_neg hact]
        exact hactf

theorem applyLayerOps_inv (ops : List LayerOp) : ∀ st : LayersState, LayerInv st →
    freshRun st ops = true → LayerInv (applyLayerOps ops st) := by
  induction ops with
  | nil => intro st hinv _; exact hinv
  | cons op rest ih =>
      intro st hinv hrun
      have hops : applyLayerOps (op :: rest) st = applyLayerOps rest (applyLayerOp st op) := rfl
      rw [hops]
      cases op with
      | addL now =>
          rw [freshRun, Bool.and_eq_true] at hrun
          exact ih _ (addLayer_inv now st hinv (of_decide_eq_true hrun.1)) hrun.2
      | removeL id =>
          rw [freshRun] at hrun
          exact ih _ (removeLayer_inv id st hinv) hrun

/-- C6 (amended): starting from any state satisfying the registry
invariant, every sequence of `addLayer`/`removeLayer` calls in which
each generated id is fresh (guaranteed under distinct clock readings,
violated by same-millisecond calls) keeps the layer list non-empty and
the active id resolving to an existing layer; `removeLayer` of the only
remaining layer is a no-op that reports the user-visible warning; and
removing the active layer activates the first remaining layer in
z-order. -/
theorem layer_registry_invariant (st : LayersState) (ops : List LayerOp)
    (hinv : LayerInv st) (hrun : freshRun st ops = true) :
    (applyLayerOps ops st).layers ≠ [] ∧
    (applyLayerOps ops st).activeLayerId ∈ layerIds (applyLayerOps ops st) ∧
    LayerInv (applyLayerOps ops st) ∧
    (∀ id, st.layers.length ≤ 1 → removeLayer id st = (st, true)) ∧
    (∀ id, 1 < st.layers.length → st.activeLayerId = id →
      ∃ l, (st.layers.filter (fun x => x.id ≠ id)).head? = some l ∧
        (removeLayer id st).1.activeLayerId = l.id) := by
  have hres := applyLayerOps_inv ops st hinv hrun
  refine ⟨hres.1, hres.2.1, hres, ?_, ?_⟩
  · intro id hlen
    unfold removeLayer
    rw [if_pos hlen]
  · intro id hlen hact
    obtain ⟨l0, hl0mem, hl0ne⟩ := exists_layer_ne_id st.layers (by omega) hinv.2.2 id
    have hl0f : l0 ∈ st.layers.filter (fun l => l.id ≠ id) :=
      List.mem_filter.2 ⟨hl0mem, by simpa using hl0ne⟩
    have hfne : st.layers.filter (fun l => l.id ≠ id) ≠ [] := List.ne_nil_of_mem hl0f
    obtain ⟨hd, tl, hcons⟩ := List.exists_cons_of_ne_nil hfne
    refine ⟨hd, by rw [hcons]; rfl, ?_⟩
    rw [removeLayer_eq_of_lt id st (by omega)]
    show (if st.activeLayerId = id then _ else st.activeLayerId) = hd.id
    rw [if_pos hact, hcons]
    rfl

/-- Witness for C6 (amended): one fresh add followed by removing the
initial layer keeps the registry invariant. -/
theorem layer_registry_invariant_witness :
    LayerInv initialLayers ∧
    freshRun initialLayers [LayerOp.addL 5, LayerOp.removeL ("layer-1")] = true ∧
    (applyLayerOps [LayerOp.addL 5, LayerOp.removeL ("layer-1")] initialLayers).layers ≠ [] :=
  ⟨by decide, by decide,
   (layer_registry_invariant initialLayers [LayerOp.addL 5, LayerOp.removeL ("layer-1")]
     (by decide) (by decide)).1⟩

/-- C6 (counterexample to the claim as stated): with two `addLayer`
calls in the same millisecond (identical `Date.now()` readings), two
layers share one id, and two `removeLayer` calls then leave the layer
list empty with a dangling active id. -/
theorem duplicate_id_empties_layer_list :
    (applyLayerOps
      [LayerOp.addL 100, LayerOp.addL 100, LayerOp.removeL ("layer-1"),
       LayerOp.removeL ("layer-100")] initialLayers).layers = [] ∧
    (applyLayerOps
      [LayerOp.addL 100, LayerOp.addL 100, LayerOp.removeL ("layer-1"),
       LayerOp.removeL ("layer-100")] initialLayers).activeLayerId = "" := by
  refine ⟨by decide, by decide⟩

end LayerManager

namespace Canvas

theorem joinLists_cons (k : String) (v : List Nat) (rest : List (String × List Nat)) :
    joinLists ((k, v) :: rest) = v ++ joinLists rest := by
  simp [joinLists]

theorem not_mem_head_of_not_mem_joinLists {o : Nat} {k : String} {v : List Nat}
    {rest : List (String × List Nat)} (h : o ∉ joinLists ((k, v) :: rest)) :
    o ∉ v ∧ o ∉ joinLists rest := by
  rw [joinLists_cons] at h
  simp only [List.mem_append] at h
  exact ⟨fun hv => h (Or.inl hv), fun hr => h (Or.inr hr)⟩

theorem pushIfPresent_eq_self (o : Nat) (m : List (String × List Nat))
    (h : o ∉ joinLists m) : pushIfPresent o m = m := by
  induction m with
  | nil => rfl
  | cons e rest ih =>
      obtain ⟨k, v⟩ := e
      obtain ⟨hv, hr⟩ := not_mem_head_of_not_mem_joinLists h
      rw [pushIfPresent, if_neg hv, ih hr]

theorem removeFromLayersFirst_eq_self (o : Nat) (m : List (String × List Nat))
    (h : o ∉ joinLists m) : removeFromLayersFirst o m = m := by
  induction m with
  | nil => rfl
  | cons e rest ih =>
      obtain ⟨k, v⟩ := e
      obtain ⟨hv, hr⟩ := not_mem_head_of_not_mem_joinLists h
      rw [removeFromLayersFirst, if_neg hv, ih hr]

theorem joinLists_removeFromLayersFirst (o : Nat) (m : List (String × List Nat)) :
    joinLists (removeFromLayersFirst o m) = (joinLists m).erase o := by
  induction m with
  | nil => rfl
  | cons e rest ih =>
      obtain ⟨k, v⟩ := e
      by_cases hv : o ∈ v
      · rw [removeFromLayersFirst, if_pos hv, joinLists_cons, joinLists_cons,
          List.erase_append_left _ hv]
      · rw [removeFromLayersFirst, if_neg hv, joinLists_cons, joinLists_cons, ih,
          List.erase_append_right _ hv]

theorem pushFold_eq_self (objs : List Nat) : ∀ m : List (String × List Nat),
    (∀ o ∈ objs, o ∉ joinLists m) →
    objs.foldl (fun mm o => pushIfPresent o mm) m = m := by
  induction objs with
  | nil => intro m _; rfl
  | cons o os ih =>
      intro m h
      have h1 : pushIfPresent o m = m :=
        pushIfPresent_eq_self o m (h o (List.mem_cons_self o os))
      rw [List.foldl_cons, h1]
      exact ih m (fun x hx => h x (List.mem_cons_of_mem o hx))

theorem eraseFold_join (objs : List Nat) : ∀ m : List (String × List Nat),
    joinLists (objs.foldl (fun mm o => removeFromLayersFirst o mm) m) =
      objs.foldl (fun l o => l.erase o) (joinLists m) := by
  induction objs with
  | nil => intro m; rfl
  | cons o os ih =>
      intro m
      rw [List.foldl_cons, List.foldl_cons, ih, joinLists_removeFromLayersFirst]

theorem eraseFold_sublist (objs : List Nat) : ∀ l : List Nat,
    List.Sublist (objs.foldl (fun l o => l.erase o) l) l := by
  induction objs with
  | nil => intro l; exact List.Sublist.refl l
  | cons o os ih =>
      intro l
      rw [List.foldl_cons]
      exact List.Sublist.trans (ih (l.erase o)) (List.erase_sublist o l)

theorem eraseFold_nodup (objs : List Nat) (l : List Nat) (h : l.Nodup) :
    (objs.foldl (fun l o => l.erase o) l).Nodup :=
  List.Nodup.sublist (eraseFold_sublist objs l) h

theorem eraseFold_not_mem (objs : List Nat) (l : List Nat) (x : Nat) (h : x ∉ l) :
    x ∉ objs.foldl (fun l o => l.erase o) l :=
  fun hmem => h ((eraseFold_sublist objs l).subset hmem)

theorem eraseFold_not_mem_self (objs : List Nat) : ∀ l : List Nat, l.Nodup →
    ∀ o ∈ objs, o ∉ objs.foldl (fun l o => l.erase o) l := by
  induction objs with
  | nil => intro l _ o ho; cases ho
  | cons o os ih =>
      intro l hnd x hx
      rw [List.foldl_cons]
      rcases List.mem_cons.1 hx with rfl | hx2
      · exact eraseFold_not_mem os (l.erase x) x (hnd.not_mem_erase)
      · exact ih (l.erase o) (hnd.erase o) x hx2

theorem undoAdd_fold_spec (objs : List Nat) : ∀ st : CanvasState,
    ((objs.foldl
        (fun s o =>
          { s with
            canvasObjects := s.canvasObjects.erase o
            layerObjects := removeFromLayersFirst o s.layerObjects }) st).layerObjects =
      objs.foldl (fun m o => removeFromLayersFirst o m) st.layerObjects) ∧
    ((objs.foldl
        (fun s o =>
          { s with
            canvasObjects := s.canvasObjects.erase o
            layerObjects := removeFromLayersFirst o s.layerObjects }) st).history =
      st.history) ∧
    ((objs.foldl
        (fun s o =>
          { s with
            canvasObjects := s.canvasObjects.erase o
            layerObjects := removeFromLayersFirst o s.layerObjects }) st).historyIndex =
      st.historyIndex) := by
  induction objs with
  | nil => intro st; exact ⟨rfl, rfl, rfl⟩
  | cons o os ih => intro st; exact ih _

theorem pushAdd_fold_spec (objs : List Nat) : ∀ st : CanvasState,
    ((objs.foldl
        (fun s o =>
          { s with
            canvasObjects := s.canvasObjects ++ [o]
            layerObjects := pushIfPresent o s.layerObjects }) st).layerObjects =
      objs.foldl (fun m o => pushIfPresent o m) st.layerObjects) ∧
    ((objs.foldl
        (fun s o =>
          { s with
            canvasObjects := s.canvasObjects ++ [o]
            layerObjects := pushIfPresent o s.layerObjects }) st).history =
      st.history) ∧
    ((objs.foldl
        (fun s o =>
          { s with
            canvasObjects := s.canvasObjects ++ [o]
            layerObjects := pushIfPresent o s.layerObjects }) st).historyIndex =
      st.historyIndex) := by
  induction objs with
  | nil => intro st; exact ⟨rfl, rfl, rfl⟩
  | cons o os ih => intro st; exact ih _

theorem redoRemove_fold_spec (objs : List Nat) : ∀ st : CanvasState,
    (∀ o ∈ objs, o ∉ joinLists st.layerObjects) →
    ((objs.foldl
        (fun s o =>
          if o ∈ s.canvasObjects then
            { s with
              canvasObjects := s.canvasObjects.erase o
              layerObjects := removeFromLayersFirst o s.layerObjects }
          else s) st).layerObjects = st.layerObjects) ∧
    ((objs.foldl
        (fun s o =>
          if o ∈ s.canvasObjects then
            { s with
              canvasObjects := s.canvasObjects.erase o
              layerObjects := removeFromLayersFirst o s.layerObjects }
          else s) st).history = st.history) ∧
    ((objs.foldl
        (fun s o =>
          if o ∈ s.canvasObjects then
            { s with
              canvasObjects := s.canvasObjects.erase o
              layerObjects := removeFromLayersFirst o s.layerObjects }
          else s) st).historyIndex = st.historyIndex) := by
  induction objs with
  | nil => intro st _; exact ⟨rfl, rfl, rfl⟩
  | cons o os ih =>
      intro st h
      have ho : o ∉ joinLists st.layerObjects := h o (List.mem_cons_self o os)
      have hos : ∀ x ∈ os, x ∉ joinLists st.layerObjects :=
        fun x hx => h x (List.mem_cons_of_mem o hx)
      rw [List.foldl_cons]
      by_cases hc : o ∈ st.canvasObjects
      · rw [if_pos hc]
        have hro : removeFromLayersFirst o st.layerObjects = st.layerObjects :=
          removeFromLayersFirst_eq_self o _ ho
        have hst2 : ({ st with
            canvasObjects := st.canvasObjects.erase o
            layerObjects := removeFromLayersFirst o st.layerObjects } :
              CanvasState).layerObjects = st.layerObjects := hro
        obtain ⟨h1, h2, h3⟩ := ih { st with
          canvasObjects := st.canvasObjects.erase o
          layerObjects := removeFromLayersFirst o st.layerObjects }
          (by rw [hst2]; exact hos)
        rw [hst2] at h1
        exact ⟨h1, h2, h3⟩
      · rw [if_neg hc]
        exact ih st hos

theorem intGet?_bounds {α : Type} (l : List α) (i : Int) (a : α)
    (h : intGet? l i = some a) :
    0 ≤ i ∧ i.toNat < l.length ∧ l[i.toNat]? = some a ∧ a ∈ l := by
  rw [intGet?] at h
  by_cases hi : i < 0
  · rw [if_pos hi] at h
    exact absurd h (by simp)
  · rw [if_neg hi] at h
    have hb := (List.getElem?_eq_some.1 h).1
    refine ⟨by omega, hb, h, ?_⟩
    have he := (List.getElem?_eq_some.1 h).2
    rw [← he]
    exact List.getElem_mem hb

theorem drop_cons_of_getElem? {α : Type} (l : List α) (n : Nat) (a : α)
    (h : l[n]? = some a) : l.drop n = a :: l.drop (n + 1) := by
  obtain ⟨hb, he⟩ := List.getElem?_eq_some.1 h
  rw [List.drop_eq_getElem_cons hb, he]

theorem performUndo_add_fields (st : CanvasState) (action : HistoryAction)
    (h1 : ¬ st.historyIndex < 0) (h2 : intGet? st.history st.historyIndex = some action)
    (h3 : action.type = ActionType.add) :
    (performUndo st).layerObjects =
      action.objects.foldl (fun m o => removeFromLayersFirst o m) st.layerObjects ∧
    (performUndo st).history = st.history ∧
    (performUndo st).historyIndex = st.historyIndex - 1 := by
  refine ⟨?_, ?_, ?_⟩ <;> simp only [performUndo, if_neg h1, h2, h3] <;>
    first
    | rfl
    | exact (undoAdd_fold_spec action.objects st).1
    | exact (undoAdd_fold_spec action.objects st).2.1

theorem performUndo_remove_fields (st : CanvasState) (action : HistoryAction)
    (h1 : ¬ st.historyIndex < 0) (h2 : intGet? st.history st.historyIndex = some action)
    (h3 : action.type = ActionType.remove) :
    (performUndo st).layerObjects =
      action.objects.foldl (fun m o => pushIfPresent o m) st.layerObjects ∧
    (performUndo st).history = st.history ∧
    (performUndo st).historyIndex = st.historyIndex - 1 := by
  refine ⟨?_, ?_, ?_⟩ <;> simp only [performUndo, if_neg h1, h2, h3] <;>
    first
    | rfl
    | exact (pushAdd_fold_spec action.objects st).1
    | exact (pushAdd_fold_spec action.objects st).2.1

theorem performUndo_modify_fields (st : CanvasState) (action : HistoryAction)
    (h1 : ¬ st.historyIndex < 0) (h2 : intGet? st.history st.historyIndex = some action)
    (h3 : action.type = ActionType.modify) :
    (performUndo st).layerObjects = st.layerObjects ∧
    (performUndo st).history = st.history ∧
    (performUndo st).historyIndex = st.historyIndex - 1 := by
  refine ⟨?_, ?_, ?_⟩ <;> simp only [performUndo, if_neg h1, h2, h3]

theorem performRedo_add_fields (st : CanvasState) (action : HistoryAction)
    (h1 : ¬ st.historyIndex ≥ (st.history.length : Int) - 1)
    (h2 : intGet? st.history (st.historyIndex + 1) = some action)
    (h3 : action.type = ActionType.add) :
    (performRedo st).layerObjects =
      action.objects.foldl (fun m o => pushIfPresent o m) st.layerObjects ∧
    (performRedo st).history = st.history ∧
    (performRedo st).historyIndex = st.historyIndex + 1 := by
  refine ⟨?_, ?_, ?_⟩ <;> simp only [performRedo, if_neg h1, h2, h3] <;>
    first
    | rfl
    | exact (pushAdd_fold_spec action.objects st).1
    | exact (pushAdd_fold_spec action.objects st).2.1

theorem performRedo_remove_fields (st : CanvasState) (action : HistoryAction)
    (h1 : ¬ st.historyIndex ≥ (st.history.length : Int) - 1)
    (h2 : intGet? st.history (st.historyIndex + 1) = some action)
    (h3 : action.type = ActionType.remove)
    (habs : ∀ o ∈ action.objects, o ∉ joinLists st.layerObjects) :
    (performRedo st).layerObjects = st.layerObjects ∧
    (performRedo st).history = st.history ∧
    (performRedo st).historyIndex = st.historyIndex + 1 := by
  refine ⟨?_, ?_, ?_⟩ <;> simp only [performRedo, if_neg h1, h2, h3] <;>
    first
    | rfl
    | exact (redoRemove_fold_spec action.objects st habs).1
    | exact (redoRemove_fold_spec action.objects st habs).2.1

theorem performRedo_modify_fields (st : CanvasState) (action : HistoryAction)
    (h1 : ¬ st.historyIndex ≥ (st.history.length : Int) - 1)
    (h2 : intGet? st.history (st.historyIndex + 1) = some action)
    (h3 : action.type = ActionType.modify) :
    (performRedo st).layerObjects = st.layerObjects ∧
    (performRedo st).history = st.history ∧
    (performRedo st).historyIndex = st.historyIndex + 1 := by
  refine ⟨?_, ?_, ?_⟩ <;> simp only [performRedo, if_neg h1, h2, h3]

theorem layers_nodup_of_join (m : List (String × List Nat))
    (h : (joinLists m).Nodup) : ∀ p ∈ m, p.2.Nodup := by
  induction m with
  | nil => intro p hp; cases hp
  | cons e rest ih =>
      intro p hp
      obtain ⟨k, v⟩ := e
      rw [joinLists_cons] at h
      rcases List.mem_cons.1 hp with rfl | hp2
      · exact h.of_append_left
      · exact ih h.of_append_right p hp2

theorem performUndo_inv (st : CanvasState) (h : CanvasInv st) :
    CanvasInv (performUndo st) := by
  obtain ⟨hN, hR, hA⟩ := h
  by_cases hneg : st.historyIndex < 0
  · rw [show performUndo st = st by simp [performUndo, hneg]]
    exact ⟨hN, hR, hA⟩
  · cases hget : intGet? st.history st.historyIndex with
    | none =>
        rw [show performUndo st = st by simp [performUndo, hneg, hget]]
        exact ⟨hN, hR, hA⟩
    | some action =>
        obtain ⟨hi0, hib, hgetn, hmem⟩ := intGet?_bounds _ _ _ hget
        have hidx1 : (st.historyIndex + 1).toNat = st.historyIndex.toNat + 1 := by omega
        have hidx2 : (st.historyIndex - 1 + 1).toNat = st.historyIndex.toNat := by omega
        have hdropeq : st.history.drop st.historyIndex.toNat =
            action :: st.history.drop (st.historyIndex.toNat + 1) :=
          drop_cons_of_getElem? _ _ _ hgetn
        cases hty : action.type with
        | add =>
            obtain ⟨hLO, hH, hI⟩ := performUndo_add_fields st action hneg hget hty
            refine ⟨?_, ?_, ?_⟩
            · rw [hLO, eraseFold_join]
              exact eraseFold_nodup _ _ hN
            · intro e he hety o ho
              rw [hH] at he
              rw [hLO, eraseFold_join]
              exact eraseFold_not_mem _ _ _ (hR e he hety o ho)
            · intro e he hety o ho
              rw [hH, hI, hidx2, hdropeq] at he
              rw [hLO, eraseFold_join]
              rcases List.mem_cons.1 he with rfl | he2
              · exact eraseFold_not_mem_self _ _ hN o ho
              · have he3 : e ∈ st.history.drop ((st.historyIndex + 1).toNat) := by
                  rw [hidx1]
                  exact he2
                exact eraseFold_not_mem _ _ _ (hA e he3 hety o ho)
        | remove =>
            have habs : ∀ o ∈ action.objects, o ∉ joinLists st.layerObjects :=
              hR action hmem hty
            obtain ⟨hLO, hH, hI⟩ := performUndo_remove_fields st action hneg hget hty
            have hLO2 : (performUndo st).layerObjects = st.layerObjects := by
              rw [hLO, pushFold_eq_self _ _ habs]
            refine ⟨?_, ?_, ?_⟩
            · rw [hLO2]; exact hN
            · intro e he hety o ho
              rw [hH] at he
              rw [hLO2]
              exact hR e he hety o ho
            · intro e he hety o ho
              rw [hH, hI, hidx2, hdropeq] at he
              rw [hLO2]
              rcases List.mem_cons.1 he with rfl | he2
              · rw [hty] at hety
                exact absurd hety (by simp)
              · have he3 : e ∈ st.history.drop ((st.historyIndex + 1).toNat) := by
                  rw [hidx1]
                  exact he2
                exact hA e he3 hety o ho
        | modify =>
            obtain ⟨hLO, hH, hI⟩ := performUndo_modify_fields st action hneg hget hty
            refine ⟨?_, ?_, ?_⟩
            · rw [hLO]; exact hN
            · intro e he hety o ho
              rw [hH] at he
              rw [hLO]
              exact hR e he hety o ho
            · intro e he hety o ho
              rw [hH, hI, hidx2, hdropeq] at he
              rw [hLO]
              rcases List.mem_cons.1 he with rfl | he2
              · rw [hty] at hety
                exact absurd hety (by simp)
              · have he3 : e ∈ st.history.drop ((st.historyIndex + 1).toNat) := by
                  rw [hidx1]
                  exact he2
                exact hA e he3 hety o ho

theorem performRedo_inv (st : CanvasState) (h : CanvasInv st) :
    CanvasInv (performRedo st) := by
  obtain ⟨hN, hR, hA⟩ := h
  by_cases hge : st.historyIndex ≥ (st.history.length : Int) - 1
  · rw [show performRedo st = st by simp [performRedo, hge]]
    exact ⟨hN, hR, hA⟩
  · cases hget : intGet? st.history (st.historyIndex + 1) with
    | none =>
        rw [show performRedo st = st by simp [performRedo, hge, hget]]
        exact ⟨hN, hR, hA⟩
    | some action =>
        obtain ⟨hi0, hib, hgetn, hmem⟩ := intGet?_bounds _ _ _ hget
        have hidx3 : (st.historyIndex + 1 + 1).toNat = (st.historyIndex + 1).toNat + 1 := by
          omega
        have hdropeq : st.history.drop (st.historyIndex + 1).toNat =
            action :: st.history.drop ((st.historyIndex + 1).toNat + 1) :=
          drop_cons_of_getElem? _ _ _ hgetn
        have hbmem : action ∈ st.history.drop ((st.historyIndex + 1).toNat) := by
          rw [hdropeq]
          exact List.mem_cons_self _ _
        cases hty : action.type with
        | add =>
            have habs : ∀ o ∈ action.objects, o ∉ joinLists st.layerObjects :=
              hA action hbmem hty
            obtain ⟨hLO, hH, hI⟩ := performRedo_add_fields st action hge hget hty
            have hLO2 : (performRedo st).layerObjects = st.layerObjects := by
              rw [hLO, pushFold_eq_self _ _ habs]
            refine ⟨?_, ?_, ?_⟩
            · rw [hLO2]; exact hN
            · intro e he hety o ho
              rw [hH] at he
              rw [hLO2]
              exact hR e he hety o ho
            · intro e he hety o ho
              rw [hH, hI, hidx3] at he
              rw [hLO2]
              have he3 : e ∈ st.history.drop ((st.historyIndex + 1).toNat) := by
                rw [hdropeq]
                exact List.mem_cons_of_mem _ he
              exact hA e he3 hety o ho
        | remove =>
            have habs : ∀ o ∈ action.objects, o ∉ joinLists st.layerObjects :=
              hR action hmem hty
            obtain ⟨hLO, hH, hI⟩ := performRedo_remove_fields st action hge hget hty habs
            refine ⟨?_, ?_, ?_⟩
            · rw [hLO]; exact hN
            · intro e he hety o ho
              rw [hH] at he
              rw [hLO]
              exact hR e he hety o ho
            · intro e he hety o ho
              rw [hH, hI, hidx3] at he
              rw [hLO]
              have he3 : e ∈ st.history.drop ((st.historyIndex + 1).toNat) := by
                rw [hdropeq]
                exact List.mem_cons_of_mem _ he
              exact hA e he3 hety o ho
        | modify =>
            obtain ⟨hLO, hH, hI⟩ := performRedo_modify_fields st action hge hget hty
            refine ⟨?_, ?_, ?_⟩
            · rw [hLO]; exact hN
            · intro e he hety o ho
              rw [hH] at he
              rw [hLO]
              exact hR e he hety o ho
            · intro e he hety o ho
              rw [hH, hI, hidx3] at he
              rw [hLO]
              have he3 : e ∈ st.history.drop ((st.historyIndex + 1).toNat) := by
                rw [hdropeq]
                exact List.mem_cons_of_mem _ he
              exact hA e he3 hety o ho

theorem applyHistOps_inv (ops : List HistOp) : ∀ st : CanvasState, CanvasInv st →
    CanvasInv (applyHistOps ops st) := by
  induction ops with
  | nil => intro st h; exact h
  | cons op rest ih =>
      intro st h
      have hstep : applyHistOps (op :: rest) st =
          applyHistOps rest
            (match op with
             | HistOp.undo => performUndo st
             | HistOp.redo => performRedo st) := rfl
      rw [hstep]
      cases op with
      | undo => exact ih _ (performUndo_inv st h)
      | redo => exact ih _ (performRedo_inv st h)

/-- C3 (amended): from any state satisfying the recording-consistency
invariant `CanvasInv` (each object listed at most once, objects of
`remove` entries and of redoable `add` entries absent from all layer
lists — true of every state the recording paths produce), any sequence
of `performUndo`/`performRedo` calls preserves the invariant, and each
object occurs at most once in each layer's object list afterwards.
(The replay guards are inverted — see the counterexample — but in
invariant-satisfying states they never fire, so no duplication ever
happens.) -/
theorem undo_redo_keep_objects_at_most_once (st : CanvasState) (ops : List HistOp)
    (hinv : CanvasInv st) :
    CanvasInv (applyHistOps ops st) ∧
    ∀ p ∈ (applyHistOps ops st).layerObjects, p.2.Nodup := by
  have h := applyHistOps_inv ops st hinv
  exact ⟨h, layers_nodup_of_join _ h.1⟩

/-- Witness for C3 (amended): undo followed by redo on the state after
one drawn line keeps every layer list duplicate-free. -/
theorem undo_redo_keep_objects_at_most_once_witness :
    CanvasInv lineDrawnState ∧
    ∀ p ∈ (applyHistOps [HistOp.undo, HistOp.redo] lineDrawnState).layerObjects,
      p.2.Nodup :=
  ⟨by decide,
   (undo_redo_keep_objects_at_most_once lineDrawnState [HistOp.undo, HistOp.redo]
     (by decide)).2⟩

/-- C3 (counterexample to the claim as stated): redoing an `add` entry
whose object is already present in the layer list appends it a second
time — the membership guard in `performRedo` pushes exactly when the
object is present. -/
theorem redo_add_on_present_object_duplicates :
    layerList presentAddState.layerObjects ("layer-1") = [0] ∧
    intGet? presentAddState.history (presentAddState.historyIndex + 1) =
      some { objects := [0], type := ActionType.add, layerId := "layer-1" } ∧
    layerList (performRedo presentAddState).layerObjects ("layer-1") = [0, 0] ∧
    ¬ (layerList (performRedo presentAddState).layerObjects ("layer-1")).Nodup := by
  refine ⟨by decide, by decide, by decide, by decide⟩

end Canvas

end Sketch
